import Mathlib

/-!
Verification of the Bluetooth attendance registry
(`attendance_app/attendance.py`, class `AttendanceManager`).

The Python dictionaries are embedded as association lists over `String`
keys (Python `dict` preserves insertion order; updating an existing key
replaces its value in place, a new key is appended).  Python `set`s of
MAC-address strings are embedded as duplicate-free `List String` with
membership, insert and discard operations.  Timestamps (`datetime.now()`)
are embedded as `Nat` seconds supplied explicitly to the operations that
read the clock.  The pickle file on disk is embedded as an
`Option (Map ClassData)` field holding the last value written.
Operations that can raise `ValueError` return `Except String Manager`.
-/

set_option maxHeartbeats 1000000

namespace AttendanceApp

/-- Association-list rendering of a Python `dict` with `String` keys. -/
abbrev Map (α : Type) := List (String × α)

/-- Python `d.get(key)` / `d[key]` lookup. -/
def mapLookup {α : Type} : Map α → String → Option α
  | [], _ => none
  | (k, v) :: rest, key => if k == key then some v else mapLookup rest key

/-- Python `d[key] = value`: replace the first binding of `key`, or append. -/
def mapInsert {α : Type} : Map α → String → α → Map α
  | [], key, v => [(key, v)]
  | (k, w) :: rest, key, v =>
    if k == key then (key, v) :: rest else (k, w) :: mapInsert rest key v

/-- Python `d.pop(key, None)` / `del d[key]`. -/
def mapErase {α : Type} (m : Map α) (key : String) : Map α :=
  m.filter (fun p => p.1 != key)

/-- Membership in a Python `set` of strings. -/
def setMem : List String → String → Bool
  | [], _ => false
  | x :: xs, a => x == a || setMem xs a

/-- Python `s.add(a)`. -/
def setAdd (s : List String) (a : String) : List String :=
  if setMem s a then s else s ++ [a]

/-- Python `s.discard(a)`. -/
def setDiscard (s : List String) (a : String) : List String :=
  s.filter (fun x => x != a)

/-- Python `str.upper()` on the ASCII MAC-address strings the manager
handles: per-character uppercasing. -/
def strUpper (s : String) : String :=
  String.mk (s.data.map Char.toUpper)

/-- The fields of a Python student dict that `AttendanceManager` reads or
writes.  An `Option` field models presence/absence of the dict key
(`student.get('manual_override', False)` etc.). -/
structure Student where
  student_id : Option String := none
  name : Option String := none
  device_address : Option String := none
  manual_override : Option Bool := none
deriving Repr, DecidableEq

/-- Per-class record produced by `_initialize_class_data`. -/
structure ClassData where
  students : Map Student
  present_students : List String
  student_mac_addresses : Map (List String)
  attendance_timestamps : Map Nat
deriving Repr, DecidableEq

/-- Embeds `AttendanceManager._initialize_class_data`. -/
def initialize_class_data : ClassData :=
  { students := [], present_students := [],
    student_mac_addresses := [], attendance_timestamps := [] }

/-- The `AttendanceManager` state: the `classes` registry, the mutable
scan interval, and the content of the pickle file (`None` = no file). -/
structure Manager where
  classes : Map ClassData
  current_scan_interval : Int
  data_file : Option (Map ClassData)
deriving Repr, DecidableEq

/-- Embeds `AttendanceManager.save_data`: pickle `self.classes` to the file. -/
def save_data (m : Manager) : Manager :=
  { m with data_file := some m.classes }

/-- Embeds `AttendanceManager.load_data`: unpickle `self.classes` from the file,
or start fresh with `{}` when no file exists. -/
def load_data (m : Manager) : Manager :=
  match m.data_file with
  | some c => { m with classes := c }
  | none => { m with classes := [] }

/-- Embeds `AttendanceManager.__init__` on a fresh install (no data file). -/
def initial_manager : Manager :=
  load_data { classes := [], current_scan_interval := 10, data_file := none }

/-- Embeds `AttendanceManager.add_class`. -/
def add_class (m : Manager) (class_name : String) : Except String Manager :=
  if class_name = "" then .error "Class name cannot be empty." else
  .ok (if (mapLookup m.classes class_name).isSome then m
       else save_data { m with
              classes := mapInsert m.classes class_name initialize_class_data })

/-- Embeds `AttendanceManager.delete_class`. -/
def delete_class (m : Manager) (class_name : String) : Except String Manager :=
  if class_name = "" then .error "Class name cannot be empty." else
  .ok (if (mapLookup m.classes class_name).isSome then
         save_data { m with classes := mapErase m.classes class_name }
       else m)

/-- Embeds `AttendanceManager._generate_unique_student_id`: the least positive
integer whose decimal string is not yet a student id of the class.
The Python `while` loop is rendered as the first unused candidate among
`"1" .. toString (n+1)` where `n` is the number of students (by the
pigeonhole principle one of these is unused, and the first unused one is
exactly where the loop stops). -/
def generate_unique_student_id (students : Map Student) : String :=
  let used := students.map Prod.fst
  let candidates := (List.range (students.length + 1)).map (fun i => toString (i + 1))
  ((candidates.filter (fun c => !(setMem used c))).headD "1")

/-- Python `dict.update(incoming)` on a student record: keys present in
the incoming dict overwrite, absent keys keep the stored value. -/
def studentUpdate (old incoming : Student) : Student :=
  { student_id := incoming.student_id <|> old.student_id,
    name := incoming.name <|> old.name,
    device_address := incoming.device_address <|> old.device_address,
    manual_override := incoming.manual_override <|> old.manual_override }

/-- One class of `assign_device_to_student`'s removal loop: discard the
(uppercased) address from every other student's MAC set and clear the
presence and timestamp of each student it was removed from. -/
def strip_class (target_class target_student addr_upper cname : String)
    (cd : ClassData) : ClassData :=
  let victim : String × List String → Bool := fun p =>
    setMem p.2 addr_upper && !(cname == target_class && p.1 == target_student)
  let victims := (cd.student_mac_addresses.filter victim).map Prod.fst
  { cd with
    student_mac_addresses := cd.student_mac_addresses.map
      (fun p => if victim p then (p.1, setDiscard p.2 addr_upper) else p),
    present_students := cd.present_students.filter (fun s => !(setMem victims s)),
    attendance_timestamps :=
      cd.attendance_timestamps.filter (fun q => !(setMem victims q.1)) }

/-- The target class's data after `assign_device_to_student`: the
address is added to the student's MAC set (auto-vivifying the
defaultdict entry) and the student record, if any, gets
`manual_override = False`. -/
def assign_target_cd (classes1 : Map ClassData) (class_name student_id addr_upper : String) :
    ClassData :=
  let cd := (mapLookup classes1 class_name).getD initialize_class_data
  let macs1 := setAdd ((mapLookup cd.student_mac_addresses student_id).getD []) addr_upper
  let cd := { cd with student_mac_addresses := mapInsert cd.student_mac_addresses student_id macs1 }
  match mapLookup cd.students student_id with
  | some st =>
    { cd with students := mapInsert cd.students student_id { st with manual_override := some false } }
  | none => cd

/-- The mutation performed by `assign_device_to_student` once its
validations passed: strip the address from every other holder, install
the target class's updated data, and save. -/
def assign_core (m : Manager) (class_name student_id addr_upper : String) : Manager :=
  let classes1 := m.classes.map
    (fun p => (p.1, strip_class class_name student_id addr_upper p.1 p.2))
  let cd1 := assign_target_cd classes1 class_name student_id addr_upper
  save_data { m with classes := mapInsert classes1 class_name cd1 }

/-- Embeds `AttendanceManager.assign_device_to_student`. -/
def assign_device_to_student (m : Manager) (class_name student_id addr : String) :
    Except String Manager :=
  if class_name = "" || student_id = "" || addr = "" then
    .error "Class name, student ID, and address cannot be empty."
  else
    let addr_upper := strUpper addr
    if (mapLookup m.classes class_name).isNone then
      .error "Class does not exist."
    else
      .ok (assign_core m class_name student_id addr_upper)

/-- The `if class_name not in self.classes` branch of
`add_student_to_class`: create the class in memory (without saving). -/
def ensure_class (m : Manager) (class_name : String) : Manager :=
  if (mapLookup m.classes class_name).isSome then m
  else { m with classes := mapInsert m.classes class_name initialize_class_data }

/-- The student-storing step of `add_student_to_class`: merge into an
existing record (`dict.update`) or insert a new one. -/
def upsert_student (m : Manager) (class_name student_id : String) (student : Student) :
    Manager :=
  let cd := (mapLookup m.classes class_name).getD initialize_class_data
  let cd := match mapLookup cd.students student_id with
    | some old =>
      { cd with students := mapInsert cd.students student_id (studentUpdate old student) }
    | none => { cd with students := mapInsert cd.students student_id student }
  { m with classes := mapInsert m.classes class_name cd }

/-- Embeds `AttendanceManager.add_student_to_class`. -/
def add_student_to_class (m : Manager) (class_name : String) (student : Student) :
    Except String Manager :=
  if class_name = "" then .error "Class name cannot be empty." else
  if student.name = none then .error "Invalid student data provided." else
  let m1 := ensure_class m class_name
  let cd := (mapLookup m1.classes class_name).getD initialize_class_data
  let student_id := match student.student_id with
    | some id => if id = "" then generate_unique_student_id cd.students else id
    | none => generate_unique_student_id cd.students
  let student := { student with student_id := some student_id }
  let m2 := upsert_student m1 class_name student_id student
  match student.device_address with
  | some a =>
    if a ≠ "" then
      match assign_device_to_student m2 class_name student_id a with
      | .ok m3 => .ok (save_data m3)
      | .error e => .error e
    else .ok (save_data m2)
  | none => .ok (save_data m2)

/-- Embeds `AttendanceManager.remove_mac_from_student`. -/
def remove_mac_from_student (m : Manager) (class_name student_id addr : String) :
    Except String Manager :=
  if class_name = "" || student_id = "" || addr = "" then
    .error "Class name, student ID, and address cannot be empty."
  else
    let addr_upper := strUpper addr
    match mapLookup m.classes class_name with
    | none => .error "Class does not exist."
    | some cd =>
      let macs := (mapLookup cd.student_mac_addresses student_id).getD []
      if setMem macs addr_upper then
        let cd1 := { cd with student_mac_addresses :=
                       mapInsert cd.student_mac_addresses student_id (setDiscard macs addr_upper) }
        .ok (save_data { m with classes := mapInsert m.classes class_name cd1 })
      else .ok m

/-- Embeds `student_data.get('manual_override', False)` with
`student_data = class_data['students'].get(student_id, {})`. -/
def manual_override_of (cd : ClassData) (student_id : String) : Bool :=
  (((mapLookup cd.students student_id).getD {}).manual_override).getD false

/-- Whether one entry of `student_mac_addresses` ends up in
`newly_present` during `update_attendance`. -/
def is_newly_present (cd : ClassData) (found_devices : List String)
    (p : String × List String) : Bool :=
  if manual_override_of cd p.1 then setMem cd.present_students p.1
  else p.2.any (fun mac => setMem found_devices mac)

/-- Timestamp stamping inside `update_attendance`'s student loop: a
newly-detected, non-overridden student with no recorded timestamp gets
`firstSeenAt = now`; everyone else's timestamps are left alone. -/
def stamp_step (cd : ClassData) (found_devices : List String) (now : Nat)
    (ts : Map Nat) (p : String × List String) : Map Nat :=
  if !(manual_override_of cd p.1) && p.2.any (fun mac => setMem found_devices mac)
      && (mapLookup ts p.1).isNone
  then mapInsert ts p.1 now else ts

/-- One class of `update_attendance`'s loop body: rebuild
`present_students`, stamp first-seen times for newly detected students
that have none, and drop timestamps of students no longer present. -/
def update_class_data (cd : ClassData) (found_devices : List String) (now : Nat) :
    ClassData :=
  let newly := (cd.student_mac_addresses.filter (is_newly_present cd found_devices)).map Prod.fst
  let ts1 := cd.student_mac_addresses.foldl (stamp_step cd found_devices now)
    cd.attendance_timestamps
  { cd with present_students := newly,
            attendance_timestamps := ts1.filter (fun q => setMem newly q.1) }

/-- Embeds `AttendanceManager.update_attendance` (the per-class `save_data`
calls collapse to the final one; with no classes nothing is saved). -/
def update_attendance (m : Manager) (found_devices : List String) (now : Nat) : Manager :=
  let classes1 := m.classes.map (fun p => (p.1, update_class_data p.2 found_devices now))
  match m.classes with
  | [] => m
  | _ :: _ => save_data { m with classes := classes1 }

/-- Embeds `AttendanceManager.get_all_students`. -/
def get_all_students (m : Manager) (class_name : String) : Map Student :=
  if class_name = "" then [] else
  match mapLookup m.classes class_name with
  | some cd => cd.students
  | none => []

/-- Embeds `AttendanceManager.get_present_students`. -/
def get_present_students (m : Manager) (class_name : String) : List String :=
  if class_name = "" then [] else
  match mapLookup m.classes class_name with
  | some cd => cd.present_students
  | none => []

/-- Embeds `AttendanceManager.mark_student_present`. -/
def mark_student_present (m : Manager) (class_name student_id : String) (now : Nat) :
    Except String Manager :=
  if class_name = "" || student_id = "" then
    .error "Class name and student ID cannot be empty."
  else
    match mapLookup m.classes class_name with
    | none => .error "Class does not exist."
    | some cd =>
      match mapLookup cd.students student_id with
      | some st =>
        let cd1 := { cd with
          present_students := setAdd cd.present_students student_id,
          attendance_timestamps := mapInsert cd.attendance_timestamps student_id now,
          students := mapInsert cd.students student_id { st with manual_override := some true } }
        .ok (save_data { m with classes := mapInsert m.classes class_name cd1 })
      | none => .ok m

/-- Embeds `AttendanceManager.mark_student_absent` (a missing class or student
only logs a warning, it does not raise). -/
def mark_student_absent (m : Manager) (class_name student_id : String) :
    Except String Manager :=
  if class_name = "" || student_id = "" then
    .error "Class name and student ID cannot be empty."
  else
    match mapLookup m.classes class_name with
    | none => .ok m
    | some cd =>
      match mapLookup cd.students student_id with
      | some st =>
        let cd1 := { cd with
          present_students := setDiscard cd.present_students student_id,
          attendance_timestamps := mapErase cd.attendance_timestamps student_id,
          students := mapInsert cd.students student_id { st with manual_override := some true } }
        .ok (save_data { m with classes := mapInsert m.classes class_name cd1 })
      | none => .ok m

/-- Embeds `AttendanceManager.get_assigned_macs_for_student`. -/
def get_assigned_macs_for_student (m : Manager) (class_name student_id : String) :
    List String :=
  if class_name = "" || student_id = "" then [] else
  match mapLookup m.classes class_name with
  | some cd => (mapLookup cd.student_mac_addresses student_id).getD []
  | none => []

/-- Embeds `AttendanceManager.get_attendance_timestamp`. -/
def get_attendance_timestamp (m : Manager) (class_name student_id : String) :
    Option Nat :=
  if class_name = "" || student_id = "" then none else
  match mapLookup m.classes class_name with
  | some cd => mapLookup cd.attendance_timestamps student_id
  | none => none

/-- Embeds `AttendanceManager.get_attendance_count` (`elapsed_time` in whole
seconds; `int(x)` on a non-negative float is floor division). -/
def get_attendance_count (m : Manager) (class_name student_id : String) (now : Nat) :
    Nat :=
  if class_name = "" || student_id = "" then 0 else
  match mapLookup m.classes class_name with
  | none => 0
  | some cd =>
    match mapLookup cd.attendance_timestamps student_id with
    | none => 0
    | some t =>
      if m.current_scan_interval ≤ 0 then 0
      else max 1 ((now - t) / m.current_scan_interval.toNat)

/-- Embeds `AttendanceManager.set_scan_interval`. -/
def set_scan_interval (m : Manager) (new_interval : Int) : Except String Manager :=
  if new_interval ≤ 0 then .error "Scan interval must be a positive integer."
  else .ok { m with current_scan_interval := new_interval }

/-- Embeds `AttendanceManager.delete_student`. -/
def delete_student (m : Manager) (class_name student_id : String) :
    Except String Manager :=
  if class_name = "" || student_id = "" then
    .error "Class name and student ID cannot be empty."
  else
    match mapLookup m.classes class_name with
    | none => .error "Class does not exist."
    | some cd =>
      if (mapLookup cd.students student_id).isSome then
        let cd1 := { cd with
          student_mac_addresses := mapErase cd.student_mac_addresses student_id,
          present_students := setDiscard cd.present_students student_id,
          attendance_timestamps := mapErase cd.attendance_timestamps student_id,
          students := mapErase cd.students student_id }
        .ok (save_data { m with classes := mapInsert m.classes class_name cd1 })
      else .error "Student ID not found."

/-- Embeds `AttendanceManager.get_student_data`. -/
def get_student_data (m : Manager) (class_name student_id : String) : Option Student :=
  if class_name = "" || student_id = "" then none else
  match mapLookup m.classes class_name with
  | some cd => mapLookup cd.students student_id
  | none => none

/-- The public mutating operations of the registry. -/
inductive Op where
  | addClass (class_name : String)
  | deleteClass (class_name : String)
  | addStudent (class_name : String) (student : Student)
  | deleteStudent (class_name student_id : String)
  | assignDevice (class_name student_id addr : String)
  | removeMac (class_name student_id addr : String)
  | markPresent (class_name student_id : String) (now : Nat)
  | markAbsent (class_name student_id : String)
  | updateAttendance (found_devices : List String) (now : Nat)
  | setScanInterval (new_interval : Int)
  | save
  | load

/-- Result state of a fallible call: a raised `ValueError` leaves the
registry unchanged (all validations precede any mutation). -/
def run (r : Except String Manager) (m : Manager) : Manager :=
  match r with
  | .ok m' => m'
  | .error _ => m

/-- Apply one registry operation to the state. -/
def applyOp (m : Manager) : Op → Manager
  | .addClass c => run (add_class m c) m
  | .deleteClass c => run (delete_class m c) m
  | .addStudent c st => run (add_student_to_class m c st) m
  | .deleteStudent c s => run (delete_student m c s) m
  | .assignDevice c s a => run (assign_device_to_student m c s a) m
  | .removeMac c s a => run (remove_mac_from_student m c s a) m
  | .markPresent c s now => run (mark_student_present m c s now) m
  | .markAbsent c s => run (mark_student_absent m c s) m
  | .updateAttendance f now => update_attendance m f now
  | .setScanInterval n => run (set_scan_interval m n) m
  | .save => save_data m
  | .load => load_data m

/-- Run a sequence of operations from the fresh-install state. -/
def runOps (ops : List Op) : Manager :=
  ops.foldl applyOp initial_manager

/-- A sequence of `update_attendance` cycles, each with its snapshot and
its clock reading. -/
def run_cycles (m : Manager) (cycles : List (List String × Nat)) : Manager :=
  cycles.foldl (fun acc cyc => update_attendance acc cyc.1 cyc.2) m

/-- Whether student `s` of class data `cd` holds device `d`. -/
def class_holds (cd : ClassData) (s d : String) : Bool :=
  match mapLookup cd.student_mac_addresses s with
  | some macs => setMem macs d
  | none => false

/-- Whether, in the `classes` registry `cl`, student `s` of class `c`
holds device `d`. -/
def holds_device (cl : Map ClassData) (c s d : String) : Bool :=
  match mapLookup cl c with
  | some cd => class_holds cd s d
  | none => false

/-- Device-binding uniqueness over a `classes` registry: every device is
held by at most one (class, student) pair. -/
def UniqueCl (cl : Map ClassData) : Prop :=
  ∀ d c₁ s₁ c₂ s₂, holds_device cl c₁ s₁ d = true → holds_device cl c₂ s₂ d = true →
    c₁ = c₂ ∧ s₁ = s₂

/-- Uniqueness of the live registry and of the persisted snapshot. -/
def UniqueState (m : Manager) : Prop :=
  UniqueCl m.classes ∧ ∀ f, m.data_file = some f → UniqueCl f

/-- Presence/timestamp coupling over a `classes` registry: a student is
in the present set iff a first-seen timestamp is recorded. -/
def CoupledCl (cl : Map ClassData) : Prop :=
  ∀ c cd, mapLookup cl c = some cd →
    ∀ s, setMem cd.present_students s = (mapLookup cd.attendance_timestamps s).isSome

/-- Coupling of the live registry and of the persisted snapshot. -/
def CoupledState (m : Manager) : Prop :=
  CoupledCl m.classes ∧ ∀ f, m.data_file = some f → CoupledCl f

/-! ### Concrete scenario states used as witnesses and counterexamples -/

/-- A run binding one device to student `"1"` of `"CSCI-101"`. -/
def opsC1w : List Op :=
  [Op.addClass "CSCI-101", Op.addStudent "CSCI-101" { name := some "Ada" },
   Op.assignDevice "CSCI-101" "1" "AA:BB:CC:DD:EE:FF"]

/-- A run that manually marks student `"1"` present at time 100. -/
def opsC4w : List Op :=
  [Op.addClass "CSCI-101", Op.addStudent "CSCI-101" { name := some "Ada" },
   Op.markPresent "CSCI-101" "1" 100]

/-- The class data `opsC4w` produces for `"CSCI-101"`. -/
def cdC4w : ClassData :=
  { students := [("1", { student_id := some "1", name := some "Ada",
                         device_address := none, manual_override := some true })],
    present_students := ["1"],
    student_mac_addresses := [],
    attendance_timestamps := [("1", 100)] }

/-- One class, one student `"1"` holding `"AA:01"`, present since 50. -/
def mC5w : Manager :=
  { classes := [("CSCI-101",
      { students := [("1", { student_id := some "1", name := some "Ada" })],
        present_students := ["1"],
        student_mac_addresses := [("1", ["AA:01"])],
        attendance_timestamps := [("1", 50)] })],
    current_scan_interval := 10,
    data_file := none }

/-- One class, one student `"1"` first seen at 100, scan interval 10. -/
def mC9w : Manager :=
  { classes := [("CSCI-101",
      { students := [("1", { student_id := some "1", name := some "Ada" })],
        present_students := ["1"],
        student_mac_addresses := [],
        attendance_timestamps := [("1", 100)] })],
    current_scan_interval := 10,
    data_file := none }

/-- The class data of `mC9w` for `"CSCI-101"`. -/
def cdC9w : ClassData :=
  { students := [("1", { student_id := some "1", name := some "Ada" })],
    present_students := ["1"],
    student_mac_addresses := [],
    attendance_timestamps := [("1", 100)] }

/-- Detect student `"1"`'s device, then remove the binding. -/
def opsC6cex : List Op :=
  [Op.addClass "CSCI-101",
   Op.addStudent "CSCI-101" { name := some "Ada", device_address := some "AA:01" },
   Op.updateAttendance ["AA:01"] 50,
   Op.removeMac "CSCI-101" "1" "AA:01"]

/-- One class, student `"1"` holding `"AA:01"`, present since 50. -/
def mC6w : Manager :=
  { classes := [("CSCI-101",
      { students := [("1", { student_id := some "1", name := some "Ada" })],
        present_students := ["1"],
        student_mac_addresses := [("1", ["AA:01"])],
        attendance_timestamps := [("1", 50)] })],
    current_scan_interval := 10,
    data_file := none }

/-- The class data of `mC6w` for `"CSCI-101"`. -/
def cdC6w : ClassData :=
  { students := [("1", { student_id := some "1", name := some "Ada" })],
    present_students := ["1"],
    student_mac_addresses := [("1", ["AA:01"])],
    attendance_timestamps := [("1", 50)] }

/-- Bind a device to `("CSCI-101","1")`, manually mark that student
present, then rebind the same device to `("MENG-200","2")`. -/
def opsC2cex : List Op :=
  [Op.addClass "CSCI-101", Op.addStudent "CSCI-101" { name := some "Ada" },
   Op.assignDevice "CSCI-101" "1" "AA:BB:CC:DD:EE:FF",
   Op.markPresent "CSCI-101" "1" 5,
   Op.addClass "MENG-200",
   Op.addStudent "MENG-200" { name := some "Bob", student_id := some "2" },
   Op.assignDevice "MENG-200" "2" "AA:BB:CC:DD:EE:FF"]

/-- Two classes; `("CSCI-101","1")` holds the device, is present with a
timestamp and a set manual override; `("MENG-200","2")` exists. -/
def mC2w : Manager :=
  { classes :=
      [("CSCI-101",
        { students := [("1", { student_id := some "1", name := some "Ada",
                               manual_override := some true })],
          present_students := ["1"],
          student_mac_addresses := [("1", ["AA:BB:CC:DD:EE:FF"])],
          attendance_timestamps := [("1", 5)] }),
       ("MENG-200",
        { students := [("2", { student_id := some "2", name := some "Bob" })],
          present_students := [],
          student_mac_addresses := [],
          attendance_timestamps := [] })],
    current_scan_interval := 10,
    data_file := none }

/-! ### Association-list and set lemmas -/

theorem mapLookup_insert {α : Type} (m : Map α) (k key : String) (v : α) :
    mapLookup (mapInsert m k v) key = if k = key then some v else mapLookup m key := by
  induction m with
  | nil => simp [mapInsert, mapLookup]
  | cons p rest ih =>
    obtain ⟨k', w⟩ := p
    by_cases h : k' = k
    · subst h
      simp only [mapInsert, beq_self_eq_true, if_true, mapLookup]
      by_cases h2 : k' = key <;> simp [h2, mapLookup]
    · simp only [mapInsert, beq_iff_eq, h, if_false, mapLookup]
      by_cases h2 : k' = key
      · subst h2
        have : ¬ k = k' := fun hk => h hk.symm
        simp [this]
      · simp [h2, ih]

theorem mapLookup_filter_key {α : Type} (m : Map α) (q : String → Bool) (key : String) :
    mapLookup (m.filter (fun p => q p.1)) key =
      if q key then mapLookup m key else none := by
  induction m with
  | nil => simp [mapLookup]
  | cons p rest ih =>
    obtain ⟨k', w⟩ := p
    by_cases h : k' = key
    · subst h
      by_cases hq : q k' <;> simp [List.filter, hq, mapLookup, ih]
    · by_cases hq : q k' <;> simp [List.filter, hq, mapLookup, h, ih]

theorem mapLookup_erase {α : Type} (m : Map α) (k key : String) :
    mapLookup (mapErase m k) key = if k = key then none else mapLookup m key := by
  have h := mapLookup_filter_key m (fun x => x != k) key
  simp only [mapErase]
  rw [h]
  by_cases hk : k = key
  · subst hk
    simp [bne]
  · simp [hk, bne, Ne.symm hk]

theorem mapLookup_mapValues {α β : Type} (m : Map α) (f : String × α → String × β)
    (hf : ∀ p, (f p).1 = p.1) (key : String) :
    mapLookup (m.map f) key = (mapLookup m key).map (fun v => (f (key, v)).2) := by
  induction m with
  | nil => simp [mapLookup]
  | cons p rest ih =>
    obtain ⟨k', w⟩ := p
    have h1 : (f (k', w)).1 = k' := hf (k', w)
    rcases hfw : f (k', w) with ⟨a, b⟩
    rw [hfw] at h1
    simp only at h1
    subst h1
    by_cases h : a = key
    · subst h
      simp [mapLookup, List.map_cons, hfw]
    · simp [mapLookup, List.map_cons, hfw, h, ih]

theorem mapLookup_mem {α : Type} {m : Map α} {k : String} {v : α}
    (h : mapLookup m k = some v) : (k, v) ∈ m := by
  induction m with
  | nil => simp [mapLookup] at h
  | cons p rest ih =>
    obtain ⟨k', w⟩ := p
    by_cases hk : k' = k
    · subst hk
      simp [mapLookup] at h
      simp [h]
    · simp [mapLookup, hk] at h
      exact List.mem_cons_of_mem _ (ih h)

theorem setMem_iff {l : List String} {a : String} : setMem l a = true ↔ a ∈ l := by
  induction l with
  | nil => simp [setMem]
  | cons x xs ih =>
    simp only [setMem, Bool.or_eq_true, beq_iff_eq, List.mem_cons, ih]
    constructor
    · rintro (rfl | h) <;> [left; right] <;> simp_all
    · rintro (rfl | h) <;> simp_all

theorem setMem_append (l₁ l₂ : List String) (a : String) :
    setMem (l₁ ++ l₂) a = (setMem l₁ a || setMem l₂ a) := by
  induction l₁ with
  | nil => simp [setMem]
  | cons x xs ih => simp [setMem, ih, Bool.or_assoc]

theorem setMem_setAdd (l : List String) (b a : String) :
    setMem (setAdd l b) a = (setMem l a || b == a) := by
  by_cases h : setMem l b
  · simp only [setAdd, h, if_true]
    by_cases hab : b = a
    · subst hab
      simp [h]
    · simp [hab]
  · simp [setAdd, h, setMem_append, setMem]

theorem setMem_filter (l : List String) (q : String → Bool) (a : String) :
    setMem (l.filter q) a = (setMem l a && q a) := by
  induction l with
  | nil => simp [setMem]
  | cons x xs ih =>
    by_cases hx : x = a
    · subst hx
      by_cases hq : q x <;> simp [List.filter, hq, setMem, ih]
    · have hb : (x == a) = false := by simp [hx]
      by_cases hq : q x <;> simp [List.filter, hq, setMem, hb, ih]

theorem setMem_setDiscard (l : List String) (b a : String) :
    setMem (setDiscard l b) a = (setMem l a && !(b == a)) := by
  simp only [setDiscard]
  rw [setMem_filter]
  by_cases hab : b = a
  · subst hab
    simp [bne]
  · have h1 : (a == b) = false := by simp [Ne.symm hab]
    have h2 : (b == a) = false := by simp [hab]
    simp [bne, h1, h2]

theorem setMem_filterMapFst {α : Type} {entries : List (String × α)} (q : String × α → Bool)
    {s : String} :
    setMem ((entries.filter q).map Prod.fst) s = true ↔
      ∃ v, (s, v) ∈ entries ∧ q (s, v) = true := by
  rw [setMem_iff]
  simp only [List.mem_map, List.mem_filter]
  constructor
  · rintro ⟨⟨k, v⟩, ⟨hmem, hq⟩, rfl⟩
    exact ⟨v, hmem, hq⟩
  · rintro ⟨v, hmem, hq⟩
    exact ⟨(s, v), ⟨hmem, hq⟩, rfl⟩

/-! ### The device-binding relation -/

theorem class_holds_init (s d : String) : class_holds initialize_class_data s d = false := rfl

theorem holds_device_insert (cl : Map ClassData) (c : String) (cd : ClassData)
    (c' s d : String) :
    holds_device (mapInsert cl c cd) c' s d =
      if c = c' then class_holds cd s d else holds_device cl c' s d := by
  simp only [holds_device, mapLookup_insert]
  by_cases h : c = c' <;> simp [h]

theorem holds_device_erase (cl : Map ClassData) (c c' s d : String) :
    holds_device (mapErase cl c) c' s d =
      if c = c' then false else holds_device cl c' s d := by
  simp only [holds_device, mapLookup_erase]
  by_cases h : c = c' <;> simp [h]

theorem holds_device_map (cl : Map ClassData) (g : String × ClassData → ClassData)
    (c s d : String) :
    holds_device (cl.map (fun p => (p.1, g p))) c s d =
      match mapLookup cl c with
      | some cd => class_holds (g (c, cd)) s d
      | none => false := by
  simp only [holds_device]
  rw [mapLookup_mapValues cl (fun p => (p.1, g p)) (fun p => rfl) c]
  cases mapLookup cl c <;> simp

theorem if_bool_pos {α : Sort _} {b : Bool} (h : b = true) (x y : α) :
    (if b = true then x else y) = x := if_pos h

theorem if_bool_neg {α : Sort _} {b : Bool} (h : b = false) (x y : α) :
    (if b = true then x else y) = y := by
  rw [h]
  simp

/-- The key fact about `strip_class`: it changes the binding relation
only at the stripped address, where only the protected target entry can
keep it. -/
theorem class_holds_strip (tc tsid u cname : String) (cd : ClassData) (s d : String) :
    class_holds (strip_class tc tsid u cname cd) s d =
      if d = u then
        (decide (cname = tc ∧ s = tsid) && class_holds cd s d)
      else class_holds cd s d := by
  simp only [class_holds, strip_class]
  rw [mapLookup_mapValues cd.student_mac_addresses
      (fun p => if setMem p.2 u && !(cname == tc && p.1 == tsid) then (p.1, setDiscard p.2 u) else p)
      (fun p => by dsimp only; split <;> rfl) s]
  cases hm : mapLookup cd.student_mac_addresses s with
  | none => by_cases hd : d = u <;> simp [hd]
  | some macs =>
    show setMem (if (setMem macs u && !(cname == tc && s == tsid)) = true
                 then (s, setDiscard macs u) else (s, macs)).2 d =
         if d = u then decide (cname = tc ∧ s = tsid) && setMem macs d else setMem macs d
    by_cases htgt : cname = tc ∧ s = tsid
    · have hc : (setMem macs u && !(cname == tc && s == tsid)) = false := by
        simp [htgt.1, htgt.2]
      rw [if_bool_neg hc]
      by_cases hd : d = u <;> simp [hd, htgt]
    · have hbe : (cname == tc && s == tsid) = false := by
        rcases not_and_or.mp htgt with h | h <;> simp [h]
      cases hb : setMem macs u with
      | true =>
        rw [hbe, if_pos (show (true && !false) = true from rfl)]
        by_cases hd : d = u
        · subst hd
          simp [setMem_setDiscard, htgt]
        · have hud : (u == d) = false := by simp [Ne.symm hd]
          simp [setMem_setDiscard, hd, hud]
      | false =>
        rw [if_neg (show ¬((false && !(cname == tc && s == tsid)) = true) from by simp)]
        by_cases hd : d = u
        · subst hd
          simp [htgt, hb]
        · simp [hd]

theorem class_holds_set_students (cd : ClassData) (stu : Map Student) (s d : String) :
    class_holds { cd with students := stu } s d = class_holds cd s d := rfl

theorem class_holds_getD (cd : ClassData) (s d : String) :
    setMem ((mapLookup cd.student_mac_addresses s).getD []) d = class_holds cd s d := by
  simp only [class_holds]
  cases mapLookup cd.student_mac_addresses s <;> simp [setMem]

theorem class_holds_assign_target (classes1 : Map ClassData) (c s u s' d : String) :
    class_holds (assign_target_cd classes1 c s u) s' d =
      if s' = s then
        (class_holds ((mapLookup classes1 c).getD initialize_class_data) s d || (u == d))
      else class_holds ((mapLookup classes1 c).getD initialize_class_data) s' d := by
  simp only [assign_target_cd]
  cases hst : mapLookup ((mapLookup classes1 c).getD initialize_class_data).students s with
  | some st =>
    rw [class_holds_set_students]
    simp only [class_holds, mapLookup_insert]
    by_cases hs : s = s'
    · subst hs
      simp [setMem_setAdd, class_holds_getD, class_holds]
    · simp [hs, Ne.symm hs, class_holds]
  | none =>
    simp only [class_holds, mapLookup_insert]
    by_cases hs : s = s'
    · subst hs
      simp [setMem_setAdd, class_holds_getD, class_holds]
    · simp [hs, Ne.symm hs, class_holds]

/-- Full characterization of the binding relation after a device
assignment: the assigned (uppercased) address is held exactly by the
target pair, every other address's holders are untouched. -/
theorem holds_device_assign (m : Manager) (c s u c' s' d : String) :
    holds_device (assign_core m c s u).classes c' s' d =
      if d = u then decide (c' = c ∧ s' = s)
      else holds_device m.classes c' s' d := by
  have hmap : mapLookup (m.classes.map
      (fun p => (p.1, strip_class c s u p.1 p.2))) c =
      (mapLookup m.classes c).map (fun cd => strip_class c s u c cd) :=
    mapLookup_mapValues m.classes (fun p => (p.1, strip_class c s u p.1 p.2)) (fun p => rfl) c
  simp only [assign_core, save_data]
  rw [holds_device_insert]
  by_cases hc : c = c'
  · subst hc
    rw [if_pos rfl, class_holds_assign_target]
    cases hcd : mapLookup m.classes c with
    | none =>
      rw [hcd] at hmap
      simp only [hmap, Option.map_none', Option.getD_none, class_holds_init]
      by_cases hs : s' = s
      · subst hs
        by_cases hd : d = u
        · subst hd
          simp
        · have hud : (u == d) = false := by simp [Ne.symm hd]
          simp [hud, hd, holds_device, hcd]
      · by_cases hd : d = u
        · subst hd
          simp [hs]
        · simp [hs, hd, holds_device, hcd]
    | some cd0 =>
      rw [hcd] at hmap
      simp only [hmap, Option.map_some', Option.getD_some, class_holds_strip]
      by_cases hs : s' = s
      · subst hs
        by_cases hd : d = u
        · subst hd
          simp
        · have hud : (u == d) = false := by simp [Ne.symm hd]
          simp [hud, hd, holds_device, hcd]
      · by_cases hd : d = u
        · subst hd
          simp [hs]
        · simp [hs, hd, holds_device, hcd]
  · rw [if_neg hc, holds_device_map]
    have h1 : decide (c' = c ∧ s' = s) = false := by
      simp only [decide_eq_false_iff_not]
      intro h
      exact hc h.1.symm
    cases hcd : mapLookup m.classes c' with
    | none =>
      simp only [hcd]
      by_cases hd : d = u
      · subst hd
        simp [h1, holds_device, hcd]
      · simp [hd, holds_device, hcd]
    | some cd0 =>
      simp only [hcd, class_holds_strip]
      by_cases hd : d = u
      · subst hd
        simp [h1]
      · simp [hd, holds_device, hcd]

/-! ### Invariants: uniqueness -/

theorem uniqueCl_mono {cl cl' : Map ClassData}
    (h : ∀ c s d, holds_device cl' c s d = true → holds_device cl c s d = true)
    (hu : UniqueCl cl) : UniqueCl cl' :=
  fun d c₁ s₁ c₂ s₂ h₁ h₂ => hu d c₁ s₁ c₂ s₂ (h c₁ s₁ d h₁) (h c₂ s₂ d h₂)

theorem uniqueState_save_data (m₀ : Manager) (h : UniqueCl m₀.classes) :
    UniqueState (save_data m₀) := by
  refine ⟨h, fun f hf => ?_⟩
  simp only [save_data] at hf
  injection hf with hf'
  exact hf' ▸ h

theorem coupledState_save_data (m₀ : Manager) (h : CoupledCl m₀.classes) :
    CoupledState (save_data m₀) := by
  refine ⟨h, fun f hf => ?_⟩
  simp only [save_data] at hf
  injection hf with hf'
  exact hf' ▸ h

theorem uniqueCl_assign (m : Manager) (c s u : String) (hu : UniqueCl m.classes) :
    UniqueCl (assign_core m c s u).classes := by
  intro d c₁ s₁ c₂ s₂ h₁ h₂
  rw [holds_device_assign] at h₁ h₂
  by_cases hd : d = u
  · rw [if_pos hd] at h₁ h₂
    have e₁ := of_decide_eq_true h₁
    have e₂ := of_decide_eq_true h₂
    exact ⟨e₁.1.trans e₂.1.symm, e₁.2.trans e₂.2.symm⟩
  · rw [if_neg hd] at h₁ h₂
    exact hu d c₁ s₁ c₂ s₂ h₁ h₂

theorem uniqueCl_insert_sub {cl : Map ClassData} {c0 : String} {cd' : ClassData}
    (hsub : ∀ s d, class_holds cd' s d = true → holds_device cl c0 s d = true)
    (hu : UniqueCl cl) : UniqueCl (mapInsert cl c0 cd') := by
  apply uniqueCl_mono ?_ hu
  intro c s d h
  rw [holds_device_insert] at h
  by_cases h0 : c0 = c
  · subst h0
    rw [if_pos rfl] at h
    exact hsub s d h
  · rwa [if_neg h0] at h

theorem coupledCl_insert {cl : Map ClassData} {c0 : String} {cd' : ClassData}
    (hcd' : ∀ s, setMem cd'.present_students s = (mapLookup cd'.attendance_timestamps s).isSome)
    (hcl : CoupledCl cl) : CoupledCl (mapInsert cl c0 cd') := by
  intro c cd hcd s
  rw [mapLookup_insert] at hcd
  by_cases h0 : c0 = c
  · rw [if_pos h0] at hcd
    injection hcd with h'
    exact h' ▸ hcd' s
  · rw [if_neg h0] at hcd
    exact hcl c cd hcd s

/-! ### The timestamp-stamping fold of `update_attendance` -/

theorem stamp_step_preserve (cd : ClassData) (f : List String) (n : Nat) (ts : Map Nat)
    (p : String × List String) (s : String) (t : Nat) (h : mapLookup ts s = some t) :
    mapLookup (stamp_step cd f n ts p) s = some t := by
  simp only [stamp_step]
  split
  · rename_i hcond
    simp only [Bool.and_eq_true] at hcond
    rw [mapLookup_insert]
    by_cases hp : p.1 = s
    · exfalso
      have h3 := hcond.2
      rw [hp, h] at h3
      simp at h3
    · rw [if_neg hp]
      exact h
  · exact h

theorem stamp_fold_preserve (cd : ClassData) (f : List String) (n : Nat)
    (entries : List (String × List String)) (ts : Map Nat) (s : String) (t : Nat)
    (h : mapLookup ts s = some t) :
    mapLookup (entries.foldl (stamp_step cd f n) ts) s = some t := by
  induction entries generalizing ts with
  | nil => exact h
  | cons p rest ih =>
    exact ih _ (stamp_step_preserve cd f n ts p s t h)

theorem stamp_fold_isSome (cd : ClassData) (f : List String) (n : Nat)
    (entries : List (String × List String)) (ts : Map Nat) (s : String)
    (h : (mapLookup ts s).isSome = true) :
    (mapLookup (entries.foldl (stamp_step cd f n) ts) s).isSome = true := by
  obtain ⟨t, ht⟩ := Option.isSome_iff_exists.mp h
  rw [stamp_fold_preserve cd f n entries ts s t ht]
  rfl

theorem stamp_fold_detected (cd : ClassData) (f : List String) (n : Nat)
    (entries : List (String × List String)) (ts : Map Nat) (s : String)
    (macs : List String) (hmem : (s, macs) ∈ entries)
    (hdet : (!(manual_override_of cd s) && macs.any (fun mac => setMem f mac)) = true) :
    (mapLookup (entries.foldl (stamp_step cd f n) ts) s).isSome = true := by
  induction entries generalizing ts with
  | nil => cases hmem
  | cons p rest ih =>
    rcases List.mem_cons.mp hmem with heq | hmem'
    · subst heq
      rw [List.foldl_cons]
      apply stamp_fold_isSome
      simp only [stamp_step]
      simp only [Bool.and_eq_true] at hdet
      split
      · rw [mapLookup_insert, if_pos rfl]
        rfl
      · rename_i hcond
        cases hlook : mapLookup ts s with
        | some t => rfl
        | none =>
          exfalso
          apply hcond
          simp [hdet.1, hdet.2, hlook]
    · exact ih (stamp_step cd f n ts p) hmem'

theorem coupled_update_class (cd : ClassData) (f : List String) (n : Nat)
    (hcd : ∀ s, setMem cd.present_students s = (mapLookup cd.attendance_timestamps s).isSome) :
    ∀ s, setMem (update_class_data cd f n).present_students s =
      (mapLookup (update_class_data cd f n).attendance_timestamps s).isSome := by
  intro s
  simp only [update_class_data]
  rw [mapLookup_filter_key]
  cases hnew : setMem ((cd.student_mac_addresses.filter (is_newly_present cd f)).map Prod.fst) s with
  | false => simp [hnew]
  | true =>
    rw [if_pos rfl]
    obtain ⟨macs, hmem, hq⟩ := (setMem_filterMapFst (is_newly_present cd f)).mp hnew
    simp only [is_newly_present] at hq
    by_cases ho : manual_override_of cd s = true
    · rw [if_pos ho] at hq
      have hts : (mapLookup cd.attendance_timestamps s).isSome = true := by
        rw [← hcd s]
        exact hq
      exact (stamp_fold_isSome cd f n _ _ s hts).symm
    · rw [if_neg ho] at hq
      have hdet : (!(manual_override_of cd s) && macs.any (fun mac => setMem f mac)) = true := by
        simp only [Bool.not_eq_true] at ho
        simp [ho, hq]
      exact (stamp_fold_detected cd f n _ _ s macs hmem hdet).symm

/-- An existing timestamp of a student who remains present survives one
attendance update unchanged. -/
theorem update_class_keeps_timestamp (cd : ClassData) (f : List String) (n : Nat)
    (s : String) (t : Nat)
    (hts : mapLookup cd.attendance_timestamps s = some t)
    (hpres : setMem (update_class_data cd f n).present_students s = true) :
    mapLookup (update_class_data cd f n).attendance_timestamps s = some t := by
  simp only [update_class_data] at hpres ⊢
  rw [mapLookup_filter_key, if_pos hpres]
  exact stamp_fold_preserve cd f n _ _ s t hts

/-! ### Uniqueness is preserved by every operation -/

theorem uniqueCl_nil : UniqueCl [] := by
  intro d c₁ s₁ c₂ s₂ h₁ h₂
  simp [holds_device, mapLookup] at h₁

theorem uniqueCl_insert_init (cl : Map ClassData) (c0 : String) (hu : UniqueCl cl) :
    UniqueCl (mapInsert cl c0 initialize_class_data) :=
  uniqueCl_insert_sub (fun s d h => by simp [class_holds_init] at h) hu

theorem uniqueCl_upsert_student (cl : Map ClassData) (c0 : String) (stu : Map Student)
    (hu : UniqueCl cl) :
    UniqueCl (mapInsert cl c0
      { (mapLookup cl c0).getD initialize_class_data with students := stu }) := by
  apply uniqueCl_insert_sub ?_ hu
  intro s d h
  rw [class_holds_set_students] at h
  cases hcd : mapLookup cl c0 with
  | none =>
    rw [hcd] at h
    simp [class_holds_init] at h
  | some cd =>
    rw [hcd] at h
    simp only [holds_device, hcd]
    exact h

theorem uniqueState_assign (m : Manager) (c s u : String) (hcl : UniqueCl m.classes) :
    UniqueState (assign_core m c s u) := by
  have h := uniqueCl_assign m c s u hcl
  refine ⟨h, fun f hf => ?_⟩
  simp only [assign_core, save_data] at hf h
  injection hf with hf'
  exact hf' ▸ h

/-- Helper: the state returned by a successful `assign_device_to_student`
is `assign_core` on the uppercased address. -/
theorem assign_ok_eq {m m' : Manager} {c s a : String}
    (h : assign_device_to_student m c s a = .ok m') :
    m' = assign_core m c s (strUpper a) := by
  simp only [assign_device_to_student] at h
  split at h
  · cases h
  · split at h
    · cases h
    · injection h with h'
      exact h'.symm

theorem uniqueCl_ensure (m : Manager) (c0 : String) (hu : UniqueCl m.classes) :
    UniqueCl (ensure_class m c0).classes := by
  simp only [ensure_class]
  split
  · exact hu
  · exact uniqueCl_insert_init m.classes c0 hu

theorem uniqueCl_upsert (m : Manager) (c0 sid : String) (student : Student)
    (hu : UniqueCl m.classes) : UniqueCl (upsert_student m c0 sid student).classes := by
  simp only [upsert_student]
  split
  · exact uniqueCl_upsert_student m.classes c0 _ hu
  · exact uniqueCl_upsert_student m.classes c0 _ hu

/-- A successful `add_student_to_class` preserves uniqueness. -/
theorem uniqueState_addStudent {m m' : Manager} {c0 : String} {st : Student}
    (hres : add_student_to_class m c0 st = .ok m') (hcl : UniqueCl m.classes) :
    UniqueState m' := by
  simp only [add_student_to_class] at hres
  split at hres
  · cases hres
  · split at hres
    · cases hres
    · split at hres
      · rename_i a
        split at hres
        · split at hres
          · rename_i m3 hassign
            injection hres with h'
            subst h'
            have h3 := assign_ok_eq hassign
            subst h3
            exact uniqueState_save_data _
              (uniqueState_assign _ c0 _ _
                (uniqueCl_upsert _ c0 _ _ (uniqueCl_ensure m c0 hcl))).1
          · cases hres
        · injection hres with h'
          subst h'
          exact uniqueState_save_data _ (uniqueCl_upsert _ c0 _ _ (uniqueCl_ensure m c0 hcl))
      · injection hres with h'
        subst h'
        exact uniqueState_save_data _ (uniqueCl_upsert _ c0 _ _ (uniqueCl_ensure m c0 hcl))

/-- C1's inductive step: device-binding uniqueness (in the registry and
in the persisted snapshot) is preserved by every operation. -/
theorem uniqueState_applyOp (m : Manager) (op : Op) (hu : UniqueState m) :
    UniqueState (applyOp m op) := by
  obtain ⟨hcl, hfile⟩ := hu
  cases op with
  | addClass c0 =>
    simp only [applyOp, add_class]
    split
    · exact ⟨hcl, hfile⟩
    · simp only [run]
      split
      · exact ⟨hcl, hfile⟩
      · exact uniqueState_save_data _ (uniqueCl_insert_init m.classes c0 hcl)
  | deleteClass c0 =>
    simp only [applyOp, delete_class]
    split
    · exact ⟨hcl, hfile⟩
    · simp only [run]
      split
      · apply uniqueState_save_data
        apply uniqueCl_mono ?_ hcl
        intro c s d h
        rw [holds_device_erase] at h
        by_cases h0 : c0 = c
        · rw [if_pos h0] at h
          cases h
        · rwa [if_neg h0] at h
      · exact ⟨hcl, hfile⟩
  | addStudent c0 st =>
    simp only [applyOp]
    cases hres : add_student_to_class m c0 st with
    | error e =>
      simp only [run]
      exact ⟨hcl, hfile⟩
    | ok m2 =>
      simp only [run]
      exact uniqueState_addStudent hres hcl
  | deleteStudent c0 s0 =>
    simp only [applyOp, delete_student]
    split
    · exact ⟨hcl, hfile⟩
    · split
      · simp only [run]
        exact ⟨hcl, hfile⟩
      · rename_i cd hcd
        split
        · simp only [run]
          apply uniqueState_save_data
          apply uniqueCl_insert_sub ?_ hcl
          intro s d h
          simp only [class_holds, mapLookup_erase] at h
          by_cases hs : s0 = s
          · rw [if_pos hs] at h
            cases h
          · rw [if_neg hs] at h
            simp only [holds_device, hcd]
            exact h
        · simp only [run]
          exact ⟨hcl, hfile⟩
  | assignDevice c0 s0 a =>
    simp only [applyOp, assign_device_to_student]
    split
    · exact ⟨hcl, hfile⟩
    · split
      · simp only [run]
        exact ⟨hcl, hfile⟩
      · simp only [run]
        exact uniqueState_assign m c0 s0 (strUpper a) hcl
  | removeMac c0 s0 a =>
    simp only [applyOp, remove_mac_from_student]
    split
    · exact ⟨hcl, hfile⟩
    · split
      · simp only [run]
        exact ⟨hcl, hfile⟩
      · rename_i cd hcd
        split
        · simp only [run]
          apply uniqueState_save_data
          apply uniqueCl_insert_sub ?_ hcl
          intro s d h
          simp only [class_holds, mapLookup_insert] at h
          by_cases hs : s0 = s
          · rw [if_pos hs] at h
            simp only [setMem_setDiscard, Bool.and_eq_true] at h
            have hd := h.1
            rw [class_holds_getD] at hd
            simp only [holds_device, hcd]
            rw [← hs]
            exact hd
          · rw [if_neg hs] at h
            simp only [holds_device, hcd]
            exact h
        · simp only [run]
          exact ⟨hcl, hfile⟩
  | markPresent c0 s0 now =>
    simp only [applyOp, mark_student_present]
    split
    · exact ⟨hcl, hfile⟩
    · split
      · simp only [run]
        exact ⟨hcl, hfile⟩
      · rename_i cd hcd
        split
        · simp only [run]
          apply uniqueState_save_data
          apply uniqueCl_insert_sub ?_ hcl
          intro s d h
          simp only [holds_device, hcd]
          exact h
        · simp only [run]
          exact ⟨hcl, hfile⟩
  | markAbsent c0 s0 =>
    simp only [applyOp, mark_student_absent]
    split
    · exact ⟨hcl, hfile⟩
    · split
      · simp only [run]
        exact ⟨hcl, hfile⟩
      · rename_i cd hcd
        split
        · simp only [run]
          apply uniqueState_save_data
          apply uniqueCl_insert_sub ?_ hcl
          intro s d h
          simp only [holds_device, hcd]
          exact h
        · simp only [run]
          exact ⟨hcl, hfile⟩
  | updateAttendance f n =>
    simp only [applyOp, update_attendance]
    split
    · exact ⟨hcl, hfile⟩
    · apply uniqueState_save_data
      apply uniqueCl_mono ?_ hcl
      intro c s d h
      simp only [holds_device_map] at h
      cases hcd : mapLookup m.classes c with
      | none =>
        rw [hcd] at h
        cases h
      | some cd =>
        simp only [hcd] at h
        simp only [holds_device, hcd]
        exact h
  | setScanInterval n =>
    simp only [applyOp, set_scan_interval]
    split
    · exact ⟨hcl, hfile⟩
    · simp only [run]
      exact ⟨hcl, hfile⟩
  | save =>
    exact uniqueState_save_data m hcl
  | load =>
    simp only [applyOp, load_data]
    cases hf : m.data_file with
    | some f =>
      refine ⟨hfile f hf, fun f' hf' => ?_⟩
      injection hf' with h'
      exact h' ▸ hfile f hf
    | none =>
      refine ⟨uniqueCl_nil, fun f' hf' => ?_⟩
      cases hf'

theorem uniqueState_initial : UniqueState initial_manager := by
  constructor
  · intro d c₁ s₁ c₂ s₂ h₁ h₂
    simp [initial_manager, load_data, holds_device, mapLookup] at h₁
  · intro f hf
    simp [initial_manager, load_data] at hf

theorem uniqueState_foldl (ops : List Op) (m : Manager) (h : UniqueState m) :
    UniqueState (ops.foldl applyOp m) := by
  induction ops generalizing m with
  | nil => exact h
  | cons op rest ih => exact ih _ (uniqueState_applyOp m op h)

/-! ### Coupling is preserved by every operation -/

theorem coupledCl_nil : CoupledCl [] := by
  intro c cd hcd
  simp [mapLookup] at hcd

theorem coupled_init :
    ∀ s, setMem initialize_class_data.present_students s =
      (mapLookup initialize_class_data.attendance_timestamps s).isSome :=
  fun _ => rfl

theorem coupledCl_erase (cl : Map ClassData) (c0 : String) (h : CoupledCl cl) :
    CoupledCl (mapErase cl c0) := by
  intro c cd hcd s
  rw [mapLookup_erase] at hcd
  by_cases h0 : c0 = c
  · rw [if_pos h0] at hcd
    cases hcd
  · rw [if_neg h0] at hcd
    exact h c cd hcd s

theorem coupledCl_map (cl : Map ClassData) (g : String × ClassData → ClassData)
    (h : CoupledCl cl)
    (hg : ∀ c cd,
      (∀ s, setMem cd.present_students s = (mapLookup cd.attendance_timestamps s).isSome) →
      ∀ s, setMem (g (c, cd)).present_students s =
        (mapLookup (g (c, cd)).attendance_timestamps s).isSome) :
    CoupledCl (cl.map (fun p => (p.1, g p))) := by
  intro c cd' hcd' s
  rw [mapLookup_mapValues cl (fun p => (p.1, g p)) (fun p => rfl) c] at hcd'
  cases hcd : mapLookup cl c with
  | none =>
    rw [hcd] at hcd'
    cases hcd'
  | some cd0 =>
    rw [hcd] at hcd'
    simp only [Option.map_some'] at hcd'
    injection hcd' with h'
    subst h'
    exact hg c cd0 (h c cd0 hcd) s

theorem coupled_strip (tc tsid u cname : String) (cd : ClassData)
    (h : ∀ s, setMem cd.present_students s = (mapLookup cd.attendance_timestamps s).isSome) :
    ∀ s, setMem (strip_class tc tsid u cname cd).present_students s =
      (mapLookup (strip_class tc tsid u cname cd).attendance_timestamps s).isSome := by
  intro s
  simp only [strip_class]
  rw [setMem_filter,
      mapLookup_filter_key cd.attendance_timestamps
        (fun x => !(setMem ((cd.student_mac_addresses.filter
          (fun p => setMem p.2 u && !(cname == tc && p.1 == tsid))).map Prod.fst) x)) s]
  cases hb : setMem ((cd.student_mac_addresses.filter
      (fun p => setMem p.2 u && !(cname == tc && p.1 == tsid))).map Prod.fst) s with
  | true => simp [hb]
  | false => simp [hb, h s]

theorem assign_target_pres_ts (classes1 : Map ClassData) (c s u : String) :
    (assign_target_cd classes1 c s u).present_students =
      ((mapLookup classes1 c).getD initialize_class_data).present_students ∧
    (assign_target_cd classes1 c s u).attendance_timestamps =
      ((mapLookup classes1 c).getD initialize_class_data).attendance_timestamps := by
  simp only [assign_target_cd]
  split <;> exact ⟨rfl, rfl⟩

theorem coupled_assign_target (classes1 : Map ClassData) (c s u : String)
    (h : CoupledCl classes1) :
    ∀ x, setMem (assign_target_cd classes1 c s u).present_students x =
      (mapLookup (assign_target_cd classes1 c s u).attendance_timestamps x).isSome := by
  intro x
  rw [(assign_target_pres_ts classes1 c s u).1, (assign_target_pres_ts classes1 c s u).2]
  cases hcd : mapLookup classes1 c with
  | some cd0 => exact h c cd0 hcd x
  | none => rfl

theorem coupledCl_assign (m : Manager) (c s u : String) (h : CoupledCl m.classes) :
    CoupledCl (assign_core m c s u).classes := by
  have hstrip : CoupledCl (m.classes.map
      (fun p => (p.1, strip_class c s u p.1 p.2))) := by
    exact coupledCl_map m.classes (fun p => strip_class c s u p.1 p.2) h
      (fun c' cd hcd => coupled_strip c s u c' cd hcd)
  simp only [assign_core, save_data]
  exact coupledCl_insert (coupled_assign_target _ c s u hstrip) hstrip

theorem coupledState_assign (m : Manager) (c s u : String) (h : CoupledCl m.classes) :
    CoupledState (assign_core m c s u) := by
  have h1 := coupledCl_assign m c s u h
  refine ⟨h1, fun f hf => ?_⟩
  simp only [assign_core, save_data] at hf h1
  injection hf with hf'
  exact hf' ▸ h1

theorem coupled_mark_present (cd : ClassData) (s0 : String) (now : Nat)
    (h : ∀ s, setMem cd.present_students s = (mapLookup cd.attendance_timestamps s).isSome) :
    ∀ s, setMem (setAdd cd.present_students s0) s =
      (mapLookup (mapInsert cd.attendance_timestamps s0 now) s).isSome := by
  intro s
  rw [setMem_setAdd, mapLookup_insert]
  by_cases hs : s0 = s
  · subst hs
    simp
  · have hb : (s0 == s) = false := by simp [hs]
    simp [hs, hb, h s]

theorem coupled_mark_absent (cd : ClassData) (s0 : String)
    (h : ∀ s, setMem cd.present_students s = (mapLookup cd.attendance_timestamps s).isSome) :
    ∀ s, setMem (setDiscard cd.present_students s0) s =
      (mapLookup (mapErase cd.attendance_timestamps s0) s).isSome := by
  intro s
  rw [setMem_setDiscard, mapLookup_erase]
  by_cases hs : s0 = s
  · subst hs
    simp
  · have hb : (s0 == s) = false := by simp [hs]
    simp [hs, hb, h s]

theorem coupledCl_ensure (m : Manager) (c0 : String) (h : CoupledCl m.classes) :
    CoupledCl (ensure_class m c0).classes := by
  simp only [ensure_class]
  split
  · exact h
  · exact coupledCl_insert coupled_init h

theorem coupledCl_getD (cl : Map ClassData) (c0 : String) (h : CoupledCl cl) :
    ∀ s, setMem ((mapLookup cl c0).getD initialize_class_data).present_students s =
      (mapLookup ((mapLookup cl c0).getD initialize_class_data).attendance_timestamps s).isSome := by
  cases hcd : mapLookup cl c0 with
  | some cd => exact h c0 cd hcd
  | none => exact fun s => rfl

theorem coupledCl_upsert (m : Manager) (c0 sid : String) (student : Student)
    (h : CoupledCl m.classes) : CoupledCl (upsert_student m c0 sid student).classes := by
  simp only [upsert_student]
  split
  · exact coupledCl_insert (coupledCl_getD m.classes c0 h) h
  · exact coupledCl_insert (coupledCl_getD m.classes c0 h) h

/-- A successful `add_student_to_class` preserves coupling. -/
theorem coupledState_addStudent {m m' : Manager} {c0 : String} {st : Student}
    (hres : add_student_to_class m c0 st = .ok m') (hcl : CoupledCl m.classes) :
    CoupledState m' := by
  simp only [add_student_to_class] at hres
  split at hres
  · cases hres
  · split at hres
    · cases hres
    · split at hres
      · rename_i a
        split at hres
        · split at hres
          · rename_i m3 hassign
            injection hres with h'
            subst h'
            have h3 := assign_ok_eq hassign
            subst h3
            exact coupledState_save_data _
              (coupledState_assign _ c0 _ _
                (coupledCl_upsert _ c0 _ _ (coupledCl_ensure m c0 hcl))).1
          · cases hres
        · injection hres with h'
          subst h'
          exact coupledState_save_data _
            (coupledCl_upsert _ c0 _ _ (coupledCl_ensure m c0 hcl))
      · injection hres with h'
        subst h'
        exact coupledState_save_data _
          (coupledCl_upsert _ c0 _ _ (coupledCl_ensure m c0 hcl))

/-- C4's inductive step: presence/timestamp coupling (in the registry
and in the persisted snapshot) is preserved by every operation. -/
theorem coupledState_applyOp (m : Manager) (op : Op) (hu : CoupledState m) :
    CoupledState (applyOp m op) := by
  obtain ⟨hcl, hfile⟩ := hu
  cases op with
  | addClass c0 =>
    simp only [applyOp, add_class]
    split
    · exact ⟨hcl, hfile⟩
    · simp only [run]
      split
      · exact ⟨hcl, hfile⟩
      · exact coupledState_save_data _ (coupledCl_insert coupled_init hcl)
  | deleteClass c0 =>
    simp only [applyOp, delete_class]
    split
    · exact ⟨hcl, hfile⟩
    · simp only [run]
      split
      · exact coupledState_save_data _ (coupledCl_erase m.classes c0 hcl)
      · exact ⟨hcl, hfile⟩
  | addStudent c0 st =>
    simp only [applyOp]
    cases hres : add_student_to_class m c0 st with
    | error e =>
      simp only [run]
      exact ⟨hcl, hfile⟩
    | ok m2 =>
      simp only [run]
      exact coupledState_addStudent hres hcl
  | deleteStudent c0 s0 =>
    simp only [applyOp, delete_student]
    split
    · exact ⟨hcl, hfile⟩
    · split
      · simp only [run]
        exact ⟨hcl, hfile⟩
      · rename_i cd hcd
        split
        · simp only [run]
          exact coupledState_save_data _
            (coupledCl_insert (coupled_mark_absent cd s0 (hcl c0 cd hcd)) hcl)
        · simp only [run]
          exact ⟨hcl, hfile⟩
  | assignDevice c0 s0 a =>
    simp only [applyOp, assign_device_to_student]
    split
    · exact ⟨hcl, hfile⟩
    · split
      · simp only [run]
        exact ⟨hcl, hfile⟩
      · simp only [run]
        exact coupledState_assign m c0 s0 (strUpper a) hcl
  | removeMac c0 s0 a =>
    simp only [applyOp, remove_mac_from_student]
    split
    · exact ⟨hcl, hfile⟩
    · split
      · simp only [run]
        exact ⟨hcl, hfile⟩
      · rename_i cd hcd
        split
        · simp only [run]
          exact coupledState_save_data _ (coupledCl_insert (hcl c0 cd hcd) hcl)
        · simp only [run]
          exact ⟨hcl, hfile⟩
  | markPresent c0 s0 now =>
    simp only [applyOp, mark_student_present]
    split
    · exact ⟨hcl, hfile⟩
    · split
      · simp only [run]
        exact ⟨hcl, hfile⟩
      · rename_i cd hcd
        split
        · simp only [run]
          exact coupledState_save_data _
            (coupledCl_insert (coupled_mark_present cd s0 now (hcl c0 cd hcd)) hcl)
        · simp only [run]
          exact ⟨hcl, hfile⟩
  | markAbsent c0 s0 =>
    simp only [applyOp, mark_student_absent]
    split
    · exact ⟨hcl, hfile⟩
    · split
      · simp only [run]
        exact ⟨hcl, hfile⟩
      · rename_i cd hcd
        split
        · simp only [run]
          exact coupledState_save_data _
            (coupledCl_insert (coupled_mark_absent cd s0 (hcl c0 cd hcd)) hcl)
        · simp only [run]
          exact ⟨hcl, hfile⟩
  | updateAttendance f n =>
    simp only [applyOp, update_attendance]
    split
    · exact ⟨hcl, hfile⟩
    · apply coupledState_save_data
      exact coupledCl_map m.classes (fun p => update_class_data p.2 f n) hcl
        (fun c' cd hcd => coupled_update_class cd f n hcd)
  | setScanInterval n =>
    simp only [applyOp, set_scan_interval]
    split
    · exact ⟨hcl, hfile⟩
    · simp only [run]
      exact ⟨hcl, hfile⟩
  | save =>
    exact coupledState_save_data m hcl
  | load =>
    simp only [applyOp, load_data]
    cases hf : m.data_file with
    | some f =>
      refine ⟨hfile f hf, fun f' hf' => ?_⟩
      injection hf' with h'
      exact h' ▸ hfile f hf
    | none =>
      refine ⟨coupledCl_nil, fun f' hf' => ?_⟩
      cases hf'

theorem coupledState_initial : CoupledState initial_manager := by
  constructor
  · intro c cd hcd
    simp [initial_manager, load_data, mapLookup] at hcd
  · intro f hf
    simp [initial_manager, load_data] at hf

theorem coupledState_foldl (ops : List Op) (m : Manager) (h : CoupledState m) :
    CoupledState (ops.foldl applyOp m) := by
  induction ops generalizing m with
  | nil => exact h
  | cons op rest ih => exact ih _ (coupledState_applyOp m op h)


/-! ### Attendance-update cycles -/

theorem update_attendance_classes (m : Manager) (f : List String) (n : Nat) (c : String) :
    mapLookup (update_attendance m f n).classes c =
      (mapLookup m.classes c).map (fun cd => update_class_data cd f n) := by
  simp only [update_attendance]
  cases hm : m.classes with
  | nil =>
    rw [hm]
    simp [mapLookup]
  | cons hd tl =>
    simp only [save_data]
    rw [← hm]
    exact mapLookup_mapValues m.classes (fun p => (p.1, update_class_data p.2 f n)) (fun p => rfl) c

/-- One attendance update keeps an existing timestamp of a student who
remains present afterwards. -/
theorem update_attendance_keeps_timestamp (m : Manager) (f : List String) (n : Nat)
    (c s : String) (t : Nat)
    (hts : get_attendance_timestamp m c s = some t)
    (hpres : setMem (get_present_students (update_attendance m f n) c) s = true) :
    get_attendance_timestamp (update_attendance m f n) c s = some t := by
  simp only [get_attendance_timestamp] at hts ⊢
  split at hts
  · cases hts
  · rename_i hcs
    rw [if_neg hcs]
    cases hcd : mapLookup m.classes c with
    | none =>
      rw [hcd] at hts
      cases hts
    | some cd =>
      simp only [hcd] at hts
      rw [update_attendance_classes, hcd]
      simp only [Option.map_some']
      have hc : ¬ c = "" := by
        intro h
        exact hcs (by simp [h])
      simp only [get_present_students, if_neg hc, update_attendance_classes, hcd,
        Option.map_some'] at hpres
      exact update_class_keeps_timestamp cd f n s t hts hpres

/-! ### Facts about the strip phase of reassignment -/

theorem strip_class_students (tc tsid u cname : String) (cd : ClassData) :
    (strip_class tc tsid u cname cd).students = cd.students := rfl

/-- A student from whom `assign_device_to_student`'s removal loop takes
the address also loses presence and timestamp in that class. -/
theorem strip_class_clears_victim (tc tsid u cname : String) (cd : ClassData) (sA : String)
    (macs : List String)
    (hlook : mapLookup cd.student_mac_addresses sA = some macs)
    (hmacs : setMem macs u = true)
    (hne : (cname == tc && sA == tsid) = false) :
    setMem (strip_class tc tsid u cname cd).present_students sA = false ∧
    mapLookup (strip_class tc tsid u cname cd).attendance_timestamps sA = none := by
  have hv : setMem ((cd.student_mac_addresses.filter
      (fun p => setMem p.2 u && !(cname == tc && p.1 == tsid))).map Prod.fst) sA = true := by
    rw [setMem_iff]
    exact List.mem_map.mpr ⟨(sA, macs),
      List.mem_filter.mpr ⟨mapLookup_mem hlook, by simp [hmacs, hne]⟩, rfl⟩
  constructor
  · simp only [strip_class]
    rw [setMem_filter]
    simp only [hv]
    simp
  · simp only [strip_class]
    rw [mapLookup_filter_key cd.attendance_timestamps
      (fun x => !(setMem ((cd.student_mac_addresses.filter
        (fun p => setMem p.2 u && !(cname == tc && p.1 == tsid))).map Prod.fst) x)) sA]
    simp only [hv]
    simp

theorem assign_target_students_other (classes1 : Map ClassData) (cB sB u sA : String)
    (hne : ¬ sB = sA) :
    mapLookup (assign_target_cd classes1 cB sB u).students sA =
      mapLookup ((mapLookup classes1 cB).getD initialize_class_data).students sA := by
  simp only [assign_target_cd]
  split
  · rw [mapLookup_insert, if_neg hne]
  · rfl

/-! ### The claims -/

/-- C1: device-binding uniqueness.  After every sequence of registry
operations from a fresh install (class/student add and removal, device
assignment and removal, manual marks, attendance updates, save/load),
every device id — operations store only uppercased ids — is held by at
most one (class, student) pair across all classes. -/
theorem C1_device_binding_uniqueness (ops : List Op) (d c₁ s₁ c₂ s₂ : String)
    (h₁ : holds_device (runOps ops).classes c₁ s₁ d = true)
    (h₂ : holds_device (runOps ops).classes c₂ s₂ d = true) :
    c₁ = c₂ ∧ s₁ = s₂ :=
  (uniqueState_foldl ops initial_manager uniqueState_initial).1 d c₁ s₁ c₂ s₂ h₁ h₂

/-- C1 witness: in a run that binds `AA:BB:CC:DD:EE:FF` to student `"1"`
of `"CSCI-101"`, the theorem applies and yields the unique holder. -/
theorem C1_witness :
    holds_device (runOps opsC1w).classes "CSCI-101" "1" "AA:BB:CC:DD:EE:FF" = true
    ∧ ("CSCI-101" = "CSCI-101" ∧ "1" = "1") :=
  ⟨by decide,
   C1_device_binding_uniqueness opsC1w "AA:BB:CC:DD:EE:FF" "CSCI-101" "1" "CSCI-101" "1"
     (by decide) (by decide)⟩

/-- C4: presence/timestamp coupling.  After every sequence of registry
operations from a fresh install, a student is in a class's present set
iff a first-seen timestamp is recorded for them. -/
theorem C4_presence_timestamp_coupling (ops : List Op) (c : String) (cd : ClassData)
    (hcd : mapLookup (runOps ops).classes c = some cd) (s : String) :
    setMem cd.present_students s = (mapLookup cd.attendance_timestamps s).isSome :=
  (coupledState_foldl ops initial_manager coupledState_initial).1 c cd hcd s

/-- C4 witness: after manually marking student `"1"` present, the stored
class data couples presence and timestamp, as the theorem demands. -/
theorem C4_witness :
    mapLookup (runOps opsC4w).classes "CSCI-101" = some cdC4w
    ∧ setMem cdC4w.present_students "1" =
        (mapLookup cdC4w.attendance_timestamps "1").isSome :=
  ⟨by decide, C4_presence_timestamp_coupling opsC4w "CSCI-101" cdC4w (by decide) "1"⟩

/-- C3 (code bug): the spec requires a manually-marked-present student to
stay present through a reconcile cycle with an empty snapshot, and
`update_attendance`'s own docstring says it respects manual overrides;
but the loop iterates only over `student_mac_addresses` entries, so a
student with no device entry is silently wiped: after
`mark_student_present` (present, override set, timestamp recorded), an
empty-snapshot update clears both presence and timestamp. -/
theorem C3_override_not_sticky_without_device :
    setMem (get_present_students (runOps opsC4w) "CSCI-101") "1" = true
    ∧ (get_student_data (runOps opsC4w) "CSCI-101" "1").map Student.manual_override =
        some (some true)
    ∧ get_attendance_timestamp (runOps opsC4w) "CSCI-101" "1" = some 100
    ∧ setMem (get_present_students
        (runOps (opsC4w ++ [Op.updateAttendance [] 110])) "CSCI-101") "1" = false
    ∧ get_attendance_timestamp
        (runOps (opsC4w ++ [Op.updateAttendance [] 110])) "CSCI-101" "1" = none := by
  decide

/-- C5: idempotent first-seen.  A present student with first-seen
timestamp `t` keeps exactly that timestamp through any sequence of
further attendance updates whose snapshots keep the student present
after each cycle. -/
theorem C5_idempotent_first_seen (m : Manager) (c s : String) (t : Nat)
    (cycles : List (List String × Nat))
    (hpres : setMem (get_present_students m c) s = true)
    (hts : get_attendance_timestamp m c s = some t)
    (hkeep : ∀ i, i < cycles.length →
      setMem (get_present_students (run_cycles m (cycles.take (i + 1))) c) s = true) :
    get_attendance_timestamp (run_cycles m cycles) c s = some t := by
  induction cycles generalizing m with
  | nil => exact hts
  | cons cyc rest ih =>
    have h0 : setMem (get_present_students (update_attendance m cyc.1 cyc.2) c) s = true := by
      have := hkeep 0 (by simp)
      simpa [run_cycles] using this
    have hts1 := update_attendance_keeps_timestamp m cyc.1 cyc.2 c s t hts h0
    have hrest : ∀ i, i < rest.length →
        setMem (get_present_students
          (run_cycles (update_attendance m cyc.1 cyc.2) (rest.take (i + 1))) c) s = true := by
      intro i hi
      have := hkeep (i + 1) (by simpa using Nat.succ_lt_succ hi)
      simpa [run_cycles, List.take_succ_cons] using this
    exact ih (update_attendance m cyc.1 cyc.2) h0 hts1 hrest

/-- C5 witness: a student present with timestamp 50 stays stamped 50
through two further detection cycles. -/
theorem C5_witness :
    get_attendance_timestamp
      (run_cycles mC5w [(["AA:01"], 60), (["AA:01"], 70)]) "CSCI-101" "1" = some 50 :=
  C5_idempotent_first_seen mC5w "CSCI-101" "1" 50 [(["AA:01"], 60), (["AA:01"], 70)]
    (by decide) (by decide) (by decide)

/-- C7 counterexample: registering an already-existing class name does
not fail — it returns successfully with the registry unchanged, so the
claimed `DuplicateClass` error is never surfaced. -/
theorem C7_counterexample :
    add_class (runOps [Op.addClass "CSCI-101"]) "CSCI-101" =
      Except.ok (runOps [Op.addClass "CSCI-101"]) := by
  rfl

/-- C7 (amended): registering an already-existing class name is a silent
no-op — no error is raised (only a warning is logged) and the registry,
including the persisted file, is returned unchanged. -/
theorem C7_amended_duplicate_class_noop (m : Manager) (c : String)
    (hc : ¬ c = "") (h : (mapLookup m.classes c).isSome = true) :
    add_class m c = Except.ok m := by
  simp only [add_class]
  rw [if_neg hc, if_pos h]

/-- C7 witness: the amended no-op behaviour at a concrete duplicate
registration. -/
theorem C7_witness :
    (¬ "MENG-200" = "" ∧
      (mapLookup (runOps [Op.addClass "MENG-200"]).classes "MENG-200").isSome = true)
    ∧ add_class (runOps [Op.addClass "MENG-200"]) "MENG-200" =
        Except.ok (runOps [Op.addClass "MENG-200"]) :=
  ⟨⟨by decide, by decide⟩,
   C7_amended_duplicate_class_noop (runOps [Op.addClass "MENG-200"]) "MENG-200"
     (by decide) (by decide)⟩

/-- C8: save/load round trip.  For every registry state, `save_data`
followed by `load_data` restores the very same `classes` table (hence
the same classes, students, MAC bindings, presence sets and timestamps)
and the same scan interval. -/
theorem C8_save_load_roundtrip (m : Manager) :
    (load_data (save_data m)).classes = m.classes ∧
    (load_data (save_data m)).current_scan_interval = m.current_scan_interval :=
  ⟨rfl, rfl⟩

/-- C9: interval-count boundaries.  With a positive scan interval, a
student with first-seen timestamp `t` gets attendance count
`max 1 ((now - t) / interval)` — in particular `1`, never `0`, when
queried `0` seconds after being marked present — and a student with no
timestamp gets `0`. -/
theorem C9_interval_count (m : Manager) (c s : String) (cd : ClassData) (now t : Nat)
    (hc : ¬ c = "") (hs : ¬ s = "")
    (hcd : mapLookup m.classes c = some cd)
    (hpos : 0 < m.current_scan_interval) :
    (mapLookup cd.attendance_timestamps s = some t →
      get_attendance_count m c s now = max 1 ((now - t) / m.current_scan_interval.toNat)
      ∧ get_attendance_count m c s t = 1)
    ∧ (mapLookup cd.attendance_timestamps s = none →
      get_attendance_count m c s now = 0) := by
  have hcs : ¬((decide (c = "") || decide (s = "")) = true) := by
    simp [hc, hs]
  constructor
  · intro hts
    simp only [get_attendance_count, if_neg hcs, hcd, hts]
    rw [if_neg (not_le.mpr hpos), if_neg (not_le.mpr hpos)]
    refine ⟨rfl, ?_⟩
    rw [Nat.sub_self, Nat.zero_div]
    omega
  · intro hts
    simp only [get_attendance_count, if_neg hcs, hcd, hts]

/-- C9 witness: concrete counts — 3 after 35 seconds at interval 10, and
1 at 0 seconds. -/
theorem C9_witness :
    get_attendance_count mC9w "CSCI-101" "1" 135 = max 1 ((135 - 100) / 10)
    ∧ get_attendance_count mC9w "CSCI-101" "1" 100 = 1 :=
  (C9_interval_count mC9w "CSCI-101" "1" cdC9w 135 100
    (by decide) (by decide) (by decide) (by decide)).1 (by decide)

/-- C6 counterexample: removing a student's bound MAC address does not
clear their presence or first-seen timestamp — after the removal the
student is still present with the original timestamp. -/
theorem C6_counterexample :
    get_assigned_macs_for_student (runOps opsC6cex) "CSCI-101" "1" = []
    ∧ setMem (get_present_students (runOps opsC6cex) "CSCI-101") "1" = true
    ∧ get_attendance_timestamp (runOps opsC6cex) "CSCI-101" "1" = some 50 := by
  decide

/-- C6 (amended): removing a currently-bound MAC address removes only
the binding; every class's presence set and timestamp table — in
particular that student's presence and first-seen timestamp — are left
unchanged. -/
theorem C6_amended_remove_mac (m : Manager) (c s a : String) (cd : ClassData)
    (hc : ¬ c = "") (hs : ¬ s = "") (ha : ¬ a = "")
    (hcd : mapLookup m.classes c = some cd)
    (hmem : setMem ((mapLookup cd.student_mac_addresses s).getD []) (strUpper a) = true) :
    ∃ m', remove_mac_from_student m c s a = Except.ok m' ∧
      holds_device m'.classes c s (strUpper a) = false ∧
      ∀ c' cd', mapLookup m'.classes c' = some cd' →
        ∃ cd₀, mapLookup m.classes c' = some cd₀ ∧
          cd'.present_students = cd₀.present_students ∧
          cd'.attendance_timestamps = cd₀.attendance_timestamps := by
  have hcs : ¬((decide (c = "") || decide (s = "") || decide (a = "")) = true) := by
    simp [hc, hs, ha]
  refine ⟨save_data { m with classes := mapInsert m.classes c { cd with student_mac_addresses := mapInsert cd.student_mac_addresses s (setDiscard ((mapLookup cd.student_mac_addresses s).getD []) (strUpper a)) } }, ?_, ?_, ?_⟩
  · simp only [remove_mac_from_student]
    rw [if_neg hcs]
    simp only [hcd]
    rw [if_pos hmem]
  · simp only [save_data]
    rw [holds_device_insert, if_pos rfl]
    simp only [class_holds, mapLookup_insert]
    simp [setMem_setDiscard]
  · intro c' cd' h'
    simp only [save_data] at h'
    rw [mapLookup_insert] at h'
    by_cases h0 : c = c'
    · rw [if_pos h0] at h'
      injection h' with h''
      subst h''
      exact ⟨cd, h0 ▸ hcd, rfl, rfl⟩
    · rw [if_neg h0] at h'
      exact ⟨cd', h', rfl, rfl⟩

/-- C6 witness: the amended behaviour at a concrete state — the binding
goes away, presence and timestamp survive. -/
theorem C6_witness :
    ∃ m', remove_mac_from_student mC6w "CSCI-101" "1" "AA:01" = Except.ok m' ∧
      holds_device m'.classes "CSCI-101" "1" (strUpper "AA:01") = false ∧
      ∀ c' cd', mapLookup m'.classes c' = some cd' →
        ∃ cd₀, mapLookup mC6w.classes c' = some cd₀ ∧
          cd'.present_students = cd₀.present_students ∧
          cd'.attendance_timestamps = cd₀.attendance_timestamps :=
  C6_amended_remove_mac mC6w "CSCI-101" "1" "AA:01" cdC6w
    (by decide) (by decide) (by decide) (by decide) (by decide)

/-- C2 counterexample: rebinding `AA:BB:CC:DD:EE:FF` from holder
`("CSCI-101","1")` (whose `manual_override` is `True` after a manual
mark) to `("MENG-200","2")` removes the binding, presence and timestamp
of the old holder and makes the new holder the sole holder — but the old
holder's `manual_override` flag stays `True`; only the new holder's flag
is reset to `False`.  This falsifies the claim's "clears A's
manual-override flag (resetting it to false)". -/
theorem C2_counterexample :
    (get_student_data (runOps opsC2cex) "CSCI-101" "1").map Student.manual_override =
      some (some true)
    ∧ holds_device (runOps opsC2cex).classes "CSCI-101" "1" "AA:BB:CC:DD:EE:FF" = false
    ∧ setMem (get_present_students (runOps opsC2cex) "CSCI-101") "1" = false
    ∧ get_attendance_timestamp (runOps opsC2cex) "CSCI-101" "1" = none
    ∧ holds_device (runOps opsC2cex).classes "MENG-200" "2" "AA:BB:CC:DD:EE:FF" = true := by
  decide

/-- C2 (amended): assigning a device currently bound to a different
holder A = (cA, sA) to B = (cB, sB) removes it from A's MAC set, clears
A's presence and first-seen timestamp, and adds the device to B's MAC
set, all within the one assign operation; A's student record — hence its
manual-override flag — is left unchanged. -/
theorem C2_amended_reassign (m : Manager) (cA sA cB sB a : String)
    (hcB : ¬ cB = "") (hsB : ¬ sB = "") (ha : ¬ a = "")
    (hBex : (mapLookup m.classes cB).isSome = true)
    (hA : holds_device m.classes cA sA (strUpper a) = true)
    (hne : ¬(cA = cB ∧ sA = sB)) :
    ∃ m', assign_device_to_student m cB sB a = Except.ok m' ∧
      holds_device m'.classes cA sA (strUpper a) = false ∧
      holds_device m'.classes cB sB (strUpper a) = true ∧
      (∀ cd', mapLookup m'.classes cA = some cd' →
        setMem cd'.present_students sA = false ∧
        mapLookup cd'.attendance_timestamps sA = none) ∧
      (∀ cdX cdX', mapLookup m.classes cA = some cdX →
        mapLookup m'.classes cA = some cdX' →
        mapLookup cdX'.students sA = mapLookup cdX.students sA) := by
  have hcs : ¬((decide (cB = "") || decide (sB = "") || decide (a = "")) = true) := by
    simp [hcB, hsB, ha]
  obtain ⟨cdB, hcdB⟩ := Option.isSome_iff_exists.mp hBex
  have hok : assign_device_to_student m cB sB a =
      Except.ok (assign_core m cB sB (strUpper a)) := by
    simp only [assign_device_to_student]
    rw [if_neg hcs]
    simp [hcdB]
  obtain ⟨cdA, hcdA⟩ : ∃ cdA, mapLookup m.classes cA = some cdA := by
    revert hA
    simp only [holds_device]
    cases h : mapLookup m.classes cA
    · intro hfalse
      cases hfalse
    · intro _
      exact ⟨_, rfl⟩
  obtain ⟨macsA, hlookA, hmemA⟩ : ∃ macs,
      mapLookup cdA.student_mac_addresses sA = some macs ∧
      setMem macs (strUpper a) = true := by
    revert hA
    simp only [holds_device, hcdA, class_holds]
    cases h : mapLookup cdA.student_mac_addresses sA
    · intro hfalse
      cases hfalse
    · intro hmem
      exact ⟨_, rfl, hmem⟩
  have hmapA : mapLookup (m.classes.map
      (fun p => (p.1, strip_class cB sB (strUpper a) p.1 p.2))) cA =
      some (strip_class cB sB (strUpper a) cA cdA) := by
    rw [mapLookup_mapValues m.classes
      (fun p => (p.1, strip_class cB sB (strUpper a) p.1 p.2)) (fun p => rfl) cA, hcdA]
    rfl
  refine ⟨_, hok, ?_, ?_, ?_, ?_⟩
  · rw [holds_device_assign, if_pos rfl]
    simp [hne]
  · rw [holds_device_assign, if_pos rfl]
    simp
  · intro cd' hcd'
    simp only [assign_core, save_data] at hcd'
    rw [mapLookup_insert] at hcd'
    by_cases hcc : cB = cA
    · subst hcc
      rw [if_pos rfl] at hcd'
      injection hcd' with h'
      subst h'
      have hsne : ¬ sA = sB := fun h => hne ⟨rfl, h⟩
      rw [(assign_target_pres_ts _ cB sB (strUpper a)).1,
          (assign_target_pres_ts _ cB sB (strUpper a)).2]
      rw [hmapA]
      simp only [Option.getD_some]
      exact strip_class_clears_victim cB sB (strUpper a) cB cdA sA macsA hlookA hmemA
        (by simp [hsne])
    · rw [if_neg hcc] at hcd'
      rw [hmapA] at hcd'
      injection hcd' with h'
      subst h'
      have hcne : ¬ cA = cB := fun h => hcc h.symm
      exact strip_class_clears_victim cB sB (strUpper a) cA cdA sA macsA hlookA hmemA
        (by simp [hcne])
  · intro cdX cdX' hcdX hcd'
    have hXA : cdX = cdA := by
      rw [hcdA] at hcdX
      injection hcdX with h'
      exact h'.symm
    subst hXA
    simp only [assign_core, save_data] at hcd'
    rw [mapLookup_insert] at hcd'
    by_cases hcc : cB = cA
    · subst hcc
      rw [if_pos rfl] at hcd'
      injection hcd' with h'
      subst h'
      have hsne : ¬ sB = sA := fun h => hne ⟨rfl, h.symm⟩
      rw [assign_target_students_other _ cB sB (strUpper a) sA hsne]
      rw [hmapA]
      simp only [Option.getD_some]
      rw [strip_class_students]
    · rw [if_neg hcc] at hcd'
      rw [hmapA] at hcd'
      injection hcd' with h'
      subst h'
      rw [strip_class_students]

/-- C2 witness: the amended behaviour at a concrete two-class state with
the old holder manually marked present. -/
theorem C2_witness :
    ∃ m', assign_device_to_student mC2w "MENG-200" "2" "AA:BB:CC:DD:EE:FF" = Except.ok m' ∧
      holds_device m'.classes "CSCI-101" "1" (strUpper "AA:BB:CC:DD:EE:FF") = false ∧
      holds_device m'.classes "MENG-200" "2" (strUpper "AA:BB:CC:DD:EE:FF") = true ∧
      (∀ cd', mapLookup m'.classes "CSCI-101" = some cd' →
        setMem cd'.present_students "1" = false ∧
        mapLookup cd'.attendance_timestamps "1" = none) ∧
      (∀ cdX cdX', mapLookup mC2w.classes "CSCI-101" = some cdX →
        mapLookup m'.classes "CSCI-101" = some cdX' →
        mapLookup cdX'.students "1" = mapLookup cdX.students "1") :=
  C2_amended_reassign mC2w "CSCI-101" "1" "MENG-200" "2" "AA:BB:CC:DD:EE:FF"
    (by decide) (by decide) (by decide) (by decide) (by decide) (by decide)

end AttendanceApp
